import Mathlib

/-! # MMOCacheHelper.user.js: the fetch interceptor with ETag / IndexedDB caching

A shallow embedding of `src/MMOCacheHelper.user.js`.  The script replaces the page's
`fetch` by an `async` wrapper that, for asset URLs, looks a record up in IndexedDB, sends
a conditional request, and either serves the stored blob or relays the fresh body to the
caller while collecting it for the store.

The embedding is sequential explicit state passing: every effect of the script (console
output, `indexedDB.open`, the `get` and `put` requests, calls of the native `fetch`, and
the `enqueue` / `close` / error of the forwarding `ReadableStream`) is appended to an
event trace in program order, and the object store is a value threaded through the run.
The environment (the stored records, whether an `indexedDB.open` or a `get` request
fires `onerror`, what the native `fetch` answers, what the body reader yields, the clock)
is the `World` parameter.

Platform objects are modelled by their standard behaviour: `Headers` is the Fetch
standard's header list (names compared case-insensitively, `set` overwrites the first
entry of that name and drops the others, `get` joins the values with `", "`), a response
body is a finite list of byte chunks followed by either `done` or a read rejection, and
a `Blob` built from chunks is their concatenation.  The first argument of `fetch` is a
string, a `Request`, or a `URL` object (which the native `fetch` takes by its string
form and which has no `includes` method).
-/

namespace MMOCacheHelper

/-! ## Strings -/

/-- Whether `pat` is a prefix of the character list. -/
def isPrefixChars : List Char → List Char → Bool
  | [], _ => true
  | _ :: _, [] => false
  | p :: ps, c :: cs => p == c && isPrefixChars ps cs

/-- Whether `pat` occurs in the character list at some position. -/
def includesChars (pat : List Char) : List Char → Bool
  | [] => pat.isEmpty
  | c :: cs => isPrefixChars pat (c :: cs) || includesChars pat cs

/-- JavaScript `s.includes(pat)`: substring test. -/
def includes (s pat : String) : Bool := includesChars pat.data s.data

/-- The constant `TARGET_URL` of the script. -/
def TARGET_URL : String := "unityweb"

/-- The constant `TARGET_PATTERN` of the script. -/
def TARGET_PATTERN : String := "assets"

/-- JavaScript truthiness of a value that is `null` or a string. -/
def truthy : Option String → Bool
  | none => false
  | some s => s != ""

/-- JavaScript `a || b` on values that are `null` or a string. -/
def jsOr (a b : Option String) : Option String := if truthy a then a else b

/-! ## Headers -/

/-- A header list: (name, value) pairs in insertion order. -/
abbrev Headers := List (String × String)

/-- Lower-cased characters of a header name. -/
def lower (s : String) : List Char := s.data.map Char.toLower

/-- Header names match case-insensitively. -/
def sameName (a b : String) : Bool := lower a == lower b

/-- The method `Headers.prototype.get`: `null` when no entry has the name, otherwise the
values of the entries with that name joined by a comma and a space. -/
def headersGet (h : Headers) (name : String) : Option String :=
  match (h.filter (fun p => sameName p.1 name)).map Prod.snd with
  | [] => none
  | v :: vs => some (", ".intercalate (v :: vs))

/-- Overwrite the first entry named `name` with `value` and drop the later ones. -/
def replaceFirst (name value : String) : Headers → Headers
  | [] => []
  | p :: ps =>
    if sameName p.1 name then (p.1, value) :: ps.filter (fun q => !sameName q.1 name)
    else p :: replaceFirst name value ps

/-- The method `Headers.prototype.set`. -/
def headersSet (h : Headers) (name value : String) : Headers :=
  if h.any (fun p => sameName p.1 name) then replaceFirst name value h
  else h ++ [(name, value)]

/-! ## Arguments of `fetch` and network answers -/

/-- A chunk read from a body: the bytes of a `Uint8Array`. -/
abbrev Chunk := List Nat

/-- The bytes of a `Blob`. -/
abbrev Blob := List Nat

/-- The options object `args[1]`: its `headers` member (absent or a header list) and its
other members (name and value, uninterpreted). -/
structure Init where
  fields : List (String × String)
  headers : Option Headers
deriving DecidableEq

/-- A `Request` object: its URL and what else it carries. -/
structure Request where
  url : String
  fields : List (String × String)
  headers : Headers
deriving DecidableEq

/-- The first argument of `fetch`: a string, a `Request`, or a `URL` object with the
given `href`. -/
inductive Input
  | url (u : String)
  | request (r : Request)
  | urlObject (href : String)
deriving DecidableEq

/-- The value of the variable `url` of line 128: a string, or the `URL` object that was
passed. -/
inductive UrlValue
  | text (s : String)
  | object (href : String)
deriving DecidableEq

/-- The argument list of one `fetch` call: `args[0]`, `args[1]` when present, and any
further arguments. -/
structure Args where
  input : Input
  init : Option Init
  extra : List String
deriving DecidableEq

/-- A response body as the reader sees it: the chunks it yields, then `done`
(`fails = false`) or a rejected `read()` (`fails = true`). -/
structure Body where
  chunks : List Chunk
  fails : Bool
deriving DecidableEq

/-- A response of the native `fetch`; `body` is `none` for a `null` body. -/
structure NetResponse where
  status : Nat
  headers : Headers
  body : Option Body
deriving DecidableEq

/-- What a call of the native `fetch` settles to. -/
inductive NetResult
  | rejects (reason : String)
  | resolves (response : NetResponse)
deriving DecidableEq

/-! ## The object store -/

/-- The object written by `setCache`. -/
structure Record where
  url : String
  date : String
  modified : Bool
  modifyDate : Option String
  etag : Option String
  blob : Blob
deriving DecidableEq

/-- The object store `files`: values under out-of-line keys. -/
abbrev Store := List (String × Record)

/-- The request `objectStore.get(key)` on success: the value under `key`, if any. -/
def storeGet (s : Store) (key : String) : Option Record := s.lookup key

/-- The request `objectStore.put(value, key)`: replaces whatever was under `key`. -/
def storePut (s : Store) (key : String) (value : Record) : Store :=
  s.filter (fun p => p.1 != key) ++ [(key, value)]

/-! ## Environment, events, state -/

/-- Why the wrapper's promise or the forwarding stream fails. -/
inductive Err
  | dbOpen
  | typeError
  | network (reason : String)
  | read
deriving DecidableEq

/-- Observable steps of a run, in program order. -/
inductive Event
  | log (msg : String)
  | openDB (ok : Bool)
  | get (key : String) (ok : Bool)
  | put (key : String) (value : Record)
  | nativeFetch (args : Args)
  | enqueue (chunk : Chunk)
  | close
  | streamError
deriving DecidableEq

/-- The environment of one call of the wrapper. -/
structure World where
  /-- Contents of the object store when the call starts. -/
  store : Store
  /-- Whether the `n`-th `indexedDB.open` of the call fires `onsuccess`. -/
  openOk : Nat → Bool
  /-- Whether the `get` request fires `onsuccess`. -/
  getOk : Bool
  /-- What the native `fetch` settles to on its `n`-th invocation with given arguments. -/
  net : Nat → Args → NetResult
  /-- The value of `new Date().toISOString()`. -/
  now : String

/-- The state threaded through a run. -/
structure Sys where
  store : Store
  trace : List Event
  opens : Nat
  fetches : Nat
deriving DecidableEq

/-- Append one event to the trace. -/
def emit (e : Event) (s : Sys) : Sys := { s with trace := s.trace ++ [e] }

/-! ## The script -/

/-- The helper `openDB`: resolves on `onsuccess`, rejects on `onerror`. -/
def openDB (w : World) (s : Sys) : Except Err Unit × Sys :=
  if w.openOk s.opens then
    (.ok (), { emit (.openDB true) s with opens := s.opens + 1 })
  else
    (.error .dbOpen, { emit (.openDB false) s with opens := s.opens + 1 })

/-- The helper `getCache`: awaits `openDB`, then resolves with the stored value on
`onsuccess` and with `null` on `onerror`. -/
def getCache (w : World) (url : String) (s : Sys) : Except Err (Option Record) × Sys :=
  match openDB w s with
  | (.error e, s1) => (.error e, s1)
  | (.ok (), s1) =>
    if w.getOk then (.ok (storeGet s1.store url), emit (.get url true) s1)
    else (.ok none, emit (.get url false) s1)

/-- The helper `setCache`: awaits `openDB`, takes the date, issues the `put`. -/
def setCache (w : World) (url : String) (etag : Option String) (blob : Blob)
    (modified : Bool) (modifyDate : Option String) (s : Sys) : Except Err Unit × Sys :=
  match openDB w s with
  | (.error e, s1) => (.error e, s1)
  | (.ok (), s1) =>
    let value : Record :=
      { url := url, date := w.now, modified := modified, modifyDate := modifyDate,
        etag := etag, blob := blob }
    (.ok (), { emit (.put url value) s1 with store := storePut s1.store url value })

/-- One invocation of the saved native `fetch`. -/
def nativeFetch (w : World) (args : Args) (s : Sys) : NetResult × Sys :=
  (w.net s.fetches args, { emit (.nativeFetch args) s with fetches := s.fetches + 1 })

/-- The `while (true)` loop of `start`: each chunk read is pushed on `chunks` and
enqueued; `done` leaves the loop, a rejected read throws. -/
def readLoop (fails : Bool) : List Chunk → List Chunk → Sys → Except Err (List Chunk) × Sys
  | [], chunks, s => if fails then (.error .read, s) else (.ok chunks, s)
  | value :: rest, chunks, s => readLoop fails rest (chunks ++ [value]) (emit (.enqueue value) s)

/-- The `start` callback of the forwarding stream.  A rejection of its promise puts the
stream in the errored state. -/
def start (w : World) (url : String) (etag : Option String) (modifiedFlag : Bool)
    (modifyDate : Option String) (body : Body) (s : Sys) : Sys :=
  match readLoop body.fails body.chunks [] s with
  | (.error _, s1) => emit .streamError s1
  | (.ok chunks, s1) =>
    let freshBlob : Blob := chunks.flatten
    let s2 := emit (.log ("%c[MMO Cache] Stored in DB: " ++ url)) s1
    match setCache w url etag freshBlob modifiedFlag modifyDate s2 with
    | (.error _, s3) => emit .streamError s3
    | (.ok (), s3) => emit .close s3

/-- What the caller gets from the wrapper. -/
inductive Returned
  /-- The wrapper's promise rejects. -/
  | rejected (e : Err)
  /-- A `new Response(blob, ...)` with the given status and headers. -/
  | fromBlob (status : Nat) (headers : Headers) (body : Blob)
  /-- A `new Response(stream, ...)` around the forwarding stream. -/
  | fromStream (status : Nat) (headers : Headers)
  /-- The promise of `nativeFetch.apply(this, args)`. -/
  | passthrough (r : NetResult)
deriving DecidableEq

/-- The result of one run: what was returned, the events, the store afterwards. -/
structure Outcome where
  returned : Returned
  trace : List Event
  store : Store
deriving DecidableEq

/-- Package a return value with the state reached. -/
def finish (r : Returned) (s : Sys) : Outcome :=
  { returned := r, trace := s.trace, store := s.store }

/-- The URL the wrapper looks at: `args[0].url` for a `Request`, else `args[0]`. -/
def resolveUrl (args : Args) : UrlValue :=
  match args.input with
  | .request r => .text r.url
  | .url u => .text u
  | .urlObject href => .object href

/-- The test of line 130, on a string. -/
def intercepted (url : String) : Bool :=
  includes url TARGET_URL || includes url TARGET_PATTERN

/-- The headers of lines 134-135: a copy of `args[1]?.headers` (empty when that is
missing), with `If-None-Match` set to `cached.etag` when `cached?.etag` is truthy. -/
def requestHeaders (args : Args) (cached : Option Record) : Headers :=
  let headers : Headers := (args.init.bind Init.headers).getD []
  match cached.bind Record.etag with
  | some e => if truthy (some e) then headersSet headers "If-None-Match" e else headers
  | none => headers

/-- The arguments of the call on line 137: the URL string and a copy of `args[1]` whose
`headers` member is the header list just built. -/
def conditionalArgs (url : String) (args : Args) (cached : Option Record) : Args :=
  { input := .url url,
    init := some { fields := (args.init.map Init.fields).getD [],
                   headers := some (requestHeaders args cached) },
    extra := [] }

/-- The condition of line 139. -/
def isHit (response : NetResponse) (cached : Option Record) : Bool :=
  response.status == 304 ||
    (response.status == 200 &&
      match cached with
      | some c => decide (headersGet response.headers "etag" = c.etag)
      | none => false)

/-- The part of the wrapper inside the `if` of line 130, and the last line when that
part returns nothing. -/
def fetchIntercepted (w : World) (url : String) (args : Args) (s0 : Sys) : Outcome :=
  let s1 := emit (.log ("%c[MMO Cache] Intercepted: " ++ url)) s0
  match getCache w url s1 with
  | (.error e, s2) => finish (.rejected e) s2
  | (.ok cached, s2) =>
    match nativeFetch w (conditionalArgs url args cached) s2 with
    | (.rejects reason, s3) => finish (.rejected (.network reason)) s3
    | (.resolves response, s3) =>
      if isHit response cached then
        let s4 := emit (.log ("%c[MMO Cache] Hit! Serving from IndexedDB: " ++ url)) s3
        match cached with
        | none => finish (.rejected .typeError) s4
        | some c => finish (.fromBlob 200 response.headers c.blob) s4
      else if response.status == 200 then
        let etag := headersGet response.headers "etag"
        let modifyDate :=
          jsOr (headersGet response.headers "last-modified") (headersGet response.headers "date")
        let modifiedFlag := cached.isSome
        match response.body with
        | none => finish (.rejected .typeError) s3
        | some body =>
          finish (.fromStream 200 response.headers)
            (start w url etag modifiedFlag modifyDate body s3)
      else
        match nativeFetch w args s3 with
        | (r, s4) => finish (.passthrough r) s4

/-- The function installed as `unsafeWindow.fetch`.  On a `URL` object the call
`url.includes(...)` of line 130 throws a `TypeError`, which rejects the promise. -/
def fetch (w : World) (args : Args) : Outcome :=
  let s0 : Sys := { store := w.store, trace := [], opens := 0, fetches := 0 }
  match resolveUrl args with
  | .object _ => finish (.rejected .typeError) s0
  | .text url =>
    if intercepted url then fetchIntercepted w url args s0
    else
      match nativeFetch w args s0 with
      | (r, s1) => finish (.passthrough r) s1

/-! ## Observations on traces -/

/-- The arguments of the native `fetch` invocations of a trace, in order. -/
def fetchCalls : List Event → List Args
  | [] => []
  | .nativeFetch a :: es => a :: fetchCalls es
  | _ :: es => fetchCalls es

/-- The chunks enqueued on the forwarding stream, in order. -/
def enqueued : List Event → List Chunk
  | [] => []
  | .enqueue c :: es => c :: enqueued es
  | _ :: es => enqueued es

/-- Whether an event is a step on the object store (`open`, `get`, `put`). -/
def Event.isStorage : Event → Bool
  | .openDB _ => true
  | .get _ _ => true
  | .put _ _ => true
  | _ => false

/-- The events of a trace that come before its first `close`. -/
def beforeClose : List Event → List Event
  | [] => []
  | .close :: _ => []
  | e :: es => e :: beforeClose es

/-- Whether an event is a `put`. -/
def Event.isPut : Event → Bool
  | .put _ _ => true
  | _ => false

/-- What `getCache` resolves with once the store has opened: the stored record when the
`get` request succeeds, `null` when it fires `onerror`. -/
def lookupResult (w : World) (url : String) : Option Record :=
  if w.getOk then storeGet w.store url else none

/-- The events of an intercepted call up to and including the conditional request, when
the store opens. -/
def requestTrace (w : World) (url : String) (args : Args) : List Event :=
  [ .log ("%c[MMO Cache] Intercepted: " ++ url),
    .openDB true,
    .get url w.getOk,
    .nativeFetch (conditionalArgs url args (lookupResult w url)) ]

/-- The record a fresh fill writes for a response whose body yielded `chunks`. -/
def filledRecord (w : World) (url : String) (response : NetResponse) (chunks : List Chunk) :
    Record :=
  { url := url,
    date := w.now,
    modified := (lookupResult w url).isSome,
    modifyDate :=
      jsOr (headersGet response.headers "last-modified") (headersGet response.headers "date"),
    etag := headersGet response.headers "etag",
    blob := chunks.flatten }

/-! ## Sample inputs -/

/-- An asset URL: it contains both markers. -/
def assetUrl : String := "https://g.ru/assets/a.unityweb"

/-- A URL that contains neither marker. -/
def otherUrl : String := "https://g.ru/api/login"

/-- The call `fetch(u)`. -/
def callOf (u : String) : Args := { input := .url u, init := none, extra := [] }

/-- The call `fetch(u, init)` with one option and the given headers. -/
def callWith (u : String) (headers : Headers) : Args :=
  { input := .url u, init := some { fields := [("mode", "cors")], headers := some headers },
    extra := [] }

/-- A world whose store works, with the given contents and network. -/
def worldOf (store : Store) (net : Nat → Args → NetResult) : World :=
  { store := store, openOk := fun _ => true, getOk := true, net := net,
    now := "2024-05-01T10:00:00.000Z" }

/-- A response whose body yields the chunks and then ends. -/
def answer (status : Nat) (headers : Headers) (chunks : List Chunk) : NetResponse :=
  { status := status, headers := headers, body := some { chunks := chunks, fails := false } }

/-- First download: empty store, the origin answers 200 with `ETag: "v1"` and the body
`A`, `B`, `C` in three chunks. -/
def freshWorld : World :=
  worldOf [] (fun _ _ => .resolves (answer 200 [("ETag", "\"v1\"")] [[65], [66], [67]]))

/-- Empty store, the origin answers 500 to the first request and 503 to the second. -/
def errorWorld : World :=
  worldOf [] (fun n _ =>
    if n = 0 then .resolves (answer 500 [("X-Try", "1")] [])
    else .resolves (answer 503 [("X-Try", "2")] []))

/-- Empty store, the origin answers 304. -/
def notModifiedWorld : World :=
  worldOf [] (fun _ _ => .resolves (answer 304 [("Date", "d")] []))

/-- A record as a fresh fill writes it for a response without an `etag` header. -/
def etaglessRecord : Record :=
  { url := assetUrl, date := "2024-04-30T10:00:00.000Z", modified := false,
    modifyDate := none, etag := none, blob := [65, 66, 67] }

/-- The store holds the record without etag; the origin answers 200, again without an
`etag` header, with a new body. -/
def etaglessWorld : World :=
  worldOf [(assetUrl, etaglessRecord)] (fun _ _ => .resolves (answer 200 [] [[88], [89]]))

/-- A record as a fresh fill writes it for a response with `ETag: "v1"`. -/
def v1Record : Record :=
  { url := assetUrl, date := "2024-04-30T10:00:00.000Z", modified := false,
    modifyDate := none, etag := some "\"v1\"", blob := [65, 66, 67] }

/-- The store holds the record with etag `"v1"`; the origin answers 304. -/
def revalidatedWorld : World :=
  worldOf [(assetUrl, v1Record)] (fun _ _ => .resolves (answer 304 [("Date", "d")] []))

/-- Empty store, the origin answers 200 without an `etag` header. -/
def etaglessFill : World :=
  worldOf [] (fun _ _ => .resolves (answer 200 [("Date", "d1")] [[65], [66], [67]]))

/-- The store a fill in `etaglessFill` leaves; the origin answers 200, again without an
`etag` header, with a new body. -/
def etaglessLater : World :=
  worldOf (fetch etaglessFill (callOf assetUrl)).store
    (fun _ _ => .resolves (answer 200 [("Date", "d2")] [[88], [89]]))

/-- The call `fetch(new URL(href))`. -/
def callWithUrlObject (href : String) : Args :=
  { input := .urlObject href, init := none, extra := [] }

/-- As `freshWorld`, but the store opens for the lookup only: the `indexedDB.open` of
`setCache` fires `onerror`. -/
def writeFailWorld : World :=
  { store := [], openOk := fun n => n == 0, getOk := true, net := freshWorld.net,
    now := "2024-05-01T10:00:00.000Z" }

/-- The store holds the record with etag `"v1"` but the `get` request fires `onerror`;
the origin answers 200 with `ETag: "v2"`. -/
def readFailWorld : World :=
  { store := [(assetUrl, v1Record)], openOk := fun _ => true, getOk := false,
    net := fun _ _ => .resolves (answer 200 [("ETag", "\"v2\"")] [[88], [89]]),
    now := "2024-05-01T10:00:00.000Z" }

/-- As `etaglessLater`, but the `get` request of the later call fires `onerror`. -/
def etaglessReadFail : World := { etaglessLater with getOk := false }

/-- Neither `indexedDB.open` succeeds; the origin would answer 200. -/
def downWorld : World :=
  { store := [], openOk := fun _ => false, getOk := true,
    net := fun _ _ => .resolves (answer 200 [("ETag", "\"v1\"")] [[65], [66], [67]]),
    now := "2024-05-01T10:00:00.000Z" }

/-- Empty store, the origin answers 200 and the body reader rejects after two chunks. -/
def brokenBodyWorld : World :=
  worldOf [] (fun _ _ => .resolves
    { status := 200, headers := [("ETag", "\"v1\"")],
      body := some { chunks := [[65], [66]], fails := true } })

/-! ## Lemmas on the helpers -/

theorem fetchCalls_append (xs ys : List Event) :
    fetchCalls (xs ++ ys) = fetchCalls xs ++ fetchCalls ys := by
  induction xs with
  | nil => rfl
  | cons e es ih => cases e <;> simp [fetchCalls, ih]

theorem enqueued_append (xs ys : List Event) :
    enqueued (xs ++ ys) = enqueued xs ++ enqueued ys := by
  induction xs with
  | nil => rfl
  | cons e es ih => cases e <;> simp [enqueued, ih]

theorem enqueued_map_enqueue (cs : List Chunk) : enqueued (cs.map Event.enqueue) = cs := by
  induction cs with
  | nil => rfl
  | cons c cs ih => simp [enqueued, ih]

theorem fetchCalls_map_enqueue (cs : List Chunk) : fetchCalls (cs.map Event.enqueue) = [] := by
  induction cs with
  | nil => rfl
  | cons c cs ih => simp [fetchCalls, ih]

/-- The read loop on a body that ends in `done` returns every chunk, in order, after
enqueuing each of them, and touches nothing else. -/
theorem readLoop_done (rest chunks : List Chunk) (s : Sys) :
    readLoop false rest chunks s =
      (.ok (chunks ++ rest), { s with trace := s.trace ++ rest.map Event.enqueue }) := by
  induction rest generalizing chunks s with
  | nil => simp [readLoop]
  | cons c cs ih => simp [readLoop, ih, emit]

/-- The read loop on a body whose reader rejects after `rest` throws, after enqueuing
each chunk of `rest`. -/
theorem readLoop_fails (rest chunks : List Chunk) (s : Sys) :
    readLoop true rest chunks s =
      (.error .read, { s with trace := s.trace ++ rest.map Event.enqueue }) := by
  induction rest generalizing chunks s with
  | nil => simp [readLoop]
  | cons c cs ih => simp [readLoop, ih, emit]

/-- The lookup, from the state in which the wrapper performs it, when the store opens. -/
theorem getCache_opened (w : World) (url : String) (s : Sys) (hs : s.opens = 0)
    (hopen : w.openOk 0 = true) :
    getCache w url s =
      (.ok (if w.getOk then storeGet s.store url else none),
        { s with trace := s.trace ++ [.openDB true, .get url w.getOk], opens := 1 }) := by
  unfold getCache openDB
  simp only [hs, hopen, if_true, emit]
  cases w.getOk <;> simp

/-- A failing `get` request is a miss: `getCache` resolves with `null`. -/
theorem getCache_read_error (w : World) (url : String) (s : Sys) (hs : s.opens = 0)
    (hopen : w.openOk 0 = true) (hget : w.getOk = false) :
    (getCache w url s).1 = .ok none := by
  rw [getCache_opened w url s hs hopen]; simp [hget]

/-- A failing `indexedDB.open` makes `getCache` reject. -/
theorem getCache_open_error (w : World) (url : String) (s : Sys) (hs : s.opens = 0)
    (hopen : w.openOk 0 = false) :
    (getCache w url s).1 = .error .dbOpen := by
  unfold getCache openDB
  simp [hs, hopen]

/-! ## The branches of the wrapper -/

/-- A `URL` object as first argument: `url.includes` throws before anything is done. -/
theorem fetch_url_object (w : World) (href : String) (args : Args)
    (hres : resolveUrl args = .object href) :
    fetch w args = { returned := .rejected .typeError, trace := [], store := w.store } := by
  simp [fetch, hres, finish]

/-- A string URL that matches neither marker: the call goes to the last line only. -/
theorem fetch_not_intercepted (w : World) (url : String) (args : Args)
    (hres : resolveUrl args = .text url)
    (hurl : intercepted url = false) :
    fetch w args =
      { returned := .passthrough (w.net 0 args),
        trace := [.nativeFetch args],
        store := w.store } := by
  simp [fetch, hres, fetchIntercepted, hurl, nativeFetch, finish, emit]

/-- An intercepted call whose `indexedDB.open` fails: the wrapper rejects before any
request is made. -/
theorem fetch_open_error (w : World) (url : String) (args : Args)
    (hres : resolveUrl args = .text url)
    (hurl : intercepted url = true) (hopen : w.openOk 0 = false) :
    fetch w args =
      { returned := .rejected .dbOpen,
        trace := [.log ("%c[MMO Cache] Intercepted: " ++ url), .openDB false],
        store := w.store } := by
  simp [fetch, hres, fetchIntercepted, hurl, getCache, openDB, hopen, finish, emit]

/-- An intercepted call whose conditional request rejects: the wrapper rejects with the
same reason. -/
theorem fetch_net_rejects (w : World) (url : String) (args : Args) (reason : String)
    (hres : resolveUrl args = .text url)
    (hurl : intercepted url = true) (hopen : w.openOk 0 = true)
    (hnet : w.net 0 (conditionalArgs url args (lookupResult w url)) =
      .rejects reason) :
    fetch w args =
      { returned := .rejected (.network reason),
        trace := requestTrace w url args,
        store := w.store } := by
  unfold lookupResult at hnet
  simp [fetch, hres, fetchIntercepted, hurl, getCache_opened, hopen, nativeFetch, hnet, finish, emit, emit,
    requestTrace, lookupResult]

/-- An intercepted call classified as a hit. -/
theorem fetch_hit (w : World) (url : String) (args : Args) (response : NetResponse)
    (hres : resolveUrl args = .text url)
    (hurl : intercepted url = true) (hopen : w.openOk 0 = true)
    (hnet : w.net 0 (conditionalArgs url args (lookupResult w url)) =
      .resolves response)
    (hhit : isHit response (lookupResult w url) = true) :
    fetch w args =
      { returned :=
          match lookupResult w url with
          | none => .rejected .typeError
          | some c => .fromBlob 200 response.headers c.blob,
        trace := requestTrace w url args ++
          [.log ("%c[MMO Cache] Hit! Serving from IndexedDB: " ++ url)],
        store := w.store } := by
  unfold lookupResult at hnet hhit
  simp only [fetch, hres, fetchIntercepted, hurl, if_true, getCache_opened, hopen, emit, nativeFetch, hnet, hhit]
  cases hc : (if w.getOk = true then storeGet w.store url else none) <;>
    simp [finish, requestTrace, lookupResult, hc]

/-- An intercepted call answered with a status that is neither a hit nor 200: the
wrapper goes on to the last line and calls the native `fetch` again. -/
theorem fetch_other_status (w : World) (url : String) (args : Args) (response : NetResponse)
    (hres : resolveUrl args = .text url)
    (hurl : intercepted url = true) (hopen : w.openOk 0 = true)
    (hnet : w.net 0 (conditionalArgs url args (lookupResult w url)) =
      .resolves response)
    (hhit : isHit response (lookupResult w url) = false)
    (hstatus : response.status ≠ 200) :
    fetch w args =
      { returned := .passthrough (w.net 1 args),
        trace := requestTrace w url args ++ [.nativeFetch args],
        store := w.store } := by
  unfold lookupResult at hnet hhit
  simp [fetch, hres, fetchIntercepted, hurl, getCache_opened, hopen, emit, nativeFetch, hnet, hhit, hstatus,
    finish, requestTrace, lookupResult]

/-- An intercepted call answered with status 200, not a hit, whose body is `null`. -/
theorem fetch_fill_no_body (w : World) (url : String) (args : Args) (response : NetResponse)
    (hres : resolveUrl args = .text url)
    (hurl : intercepted url = true) (hopen : w.openOk 0 = true)
    (hnet : w.net 0 (conditionalArgs url args (lookupResult w url)) =
      .resolves response)
    (hhit : isHit response (lookupResult w url) = false)
    (hstatus : response.status = 200) (hbody : response.body = none) :
    fetch w args =
      { returned := .rejected .typeError,
        trace := requestTrace w url args,
        store := w.store } := by
  unfold lookupResult at hnet hhit
  simp [fetch, hres, fetchIntercepted, hurl, getCache_opened, hopen, emit, nativeFetch, hnet, hhit, hstatus,
    hbody, finish, requestTrace, lookupResult]

/-- A fresh fill whose body is read to the end and whose store opens for the write. -/
theorem fetch_fill_done (w : World) (url : String) (args : Args) (response : NetResponse)
    (chunks : List Chunk)
    (hres : resolveUrl args = .text url)
    (hurl : intercepted url = true) (hopen : w.openOk 0 = true)
    (hnet : w.net 0 (conditionalArgs url args (lookupResult w url)) =
      .resolves response)
    (hhit : isHit response (lookupResult w url) = false)
    (hstatus : response.status = 200)
    (hbody : response.body = some { chunks := chunks, fails := false })
    (hwrite : w.openOk 1 = true) :
    fetch w args =
      { returned := .fromStream 200 response.headers,
        trace := requestTrace w url args ++ chunks.map Event.enqueue ++
          [ .log ("%c[MMO Cache] Stored in DB: " ++ url),
            .openDB true,
            .put url (filledRecord w url response chunks),
            .close ],
        store := storePut w.store url
          (filledRecord w url response chunks) } := by
  unfold lookupResult at hnet hhit
  simp [fetch, hres, fetchIntercepted, hurl, getCache_opened, hopen, emit, nativeFetch, hnet, hhit, hstatus,
    hbody, finish, requestTrace, lookupResult, start, readLoop_done, setCache, openDB,
    hwrite, filledRecord]

/-- A fresh fill whose body is read to the end but whose store does not open for the
write: `setCache` rejects and the forwarding stream errors. -/
theorem fetch_fill_write_error (w : World) (url : String) (args : Args) (response : NetResponse)
    (chunks : List Chunk)
    (hres : resolveUrl args = .text url)
    (hurl : intercepted url = true) (hopen : w.openOk 0 = true)
    (hnet : w.net 0 (conditionalArgs url args (lookupResult w url)) =
      .resolves response)
    (hhit : isHit response (lookupResult w url) = false)
    (hstatus : response.status = 200)
    (hbody : response.body = some { chunks := chunks, fails := false })
    (hwrite : w.openOk 1 = false) :
    fetch w args =
      { returned := .fromStream 200 response.headers,
        trace := requestTrace w url args ++ chunks.map Event.enqueue ++
          [ .log ("%c[MMO Cache] Stored in DB: " ++ url),
            .openDB false,
            .streamError ],
        store := w.store } := by
  unfold lookupResult at hnet hhit
  simp [fetch, hres, fetchIntercepted, hurl, getCache_opened, hopen, emit, nativeFetch, hnet, hhit, hstatus,
    hbody, finish, requestTrace, lookupResult, start, readLoop_done, setCache, openDB,
    hwrite]

/-- A fresh fill whose body reader rejects after `chunks`. -/
theorem fetch_fill_read_error (w : World) (url : String) (args : Args) (response : NetResponse)
    (chunks : List Chunk)
    (hres : resolveUrl args = .text url)
    (hurl : intercepted url = true) (hopen : w.openOk 0 = true)
    (hnet : w.net 0 (conditionalArgs url args (lookupResult w url)) =
      .resolves response)
    (hhit : isHit response (lookupResult w url) = false)
    (hstatus : response.status = 200)
    (hbody : response.body = some { chunks := chunks, fails := true }) :
    fetch w args =
      { returned := .fromStream 200 response.headers,
        trace := requestTrace w url args ++ chunks.map Event.enqueue ++ [.streamError],
        store := w.store } := by
  unfold lookupResult at hnet hhit
  simp [fetch, hres, fetchIntercepted, hurl, getCache_opened, hopen, emit, nativeFetch, hnet, hhit, hstatus,
    hbody, finish, requestTrace, lookupResult, start, readLoop_fails]

/-! ## Lemmas on header lists -/

theorem sameName_iff (a b : String) : sameName a b = true ↔ lower a = lower b := by
  simp [sameName]

theorem sameName_self (a : String) : sameName a a = true := by simp [sameName]

theorem filter_replaceFirst_same (name value : String) (h : Headers)
    (hany : h.any (fun p => sameName p.1 name) = true) :
    ((replaceFirst name value h).filter (fun p => sameName p.1 name)).map Prod.snd = [value] := by
  induction h with
  | nil => simp at hany
  | cons p ps ih =>
    by_cases hp : sameName p.1 name = true
    · simp [replaceFirst, hp, List.filter_filter]
    · simp only [Bool.not_eq_true] at hp
      simp only [List.any_cons, hp, Bool.false_or] at hany
      simp [replaceFirst, hp, List.filter_cons, ih hany]

theorem filter_replaceFirst_other (name value other : String) (h : Headers)
    (hne : sameName other name = false) :
    (replaceFirst name value h).filter (fun p => sameName p.1 other) =
      h.filter (fun p => sameName p.1 other) := by
  have key : ∀ q : String, sameName q other = true → sameName q name = false := by
    intro q hq
    cases hqn : sameName q name with
    | false => rfl
    | true =>
      rw [sameName_iff] at hq hqn
      have : sameName other name = true := by rw [sameName_iff, ← hq, hqn]
      rw [hne] at this; exact absurd this (by decide)
  induction h with
  | nil => rfl
  | cons p ps ih =>
    by_cases hp : sameName p.1 name = true
    · have hpo : sameName p.1 other = false := by
        cases hpo : sameName p.1 other with
        | false => rfl
        | true => rw [key _ hpo] at hp; exact absurd hp (by decide)
      simp only [replaceFirst, hp, if_true, List.filter_cons, hpo, List.filter_filter]
      simp only [Bool.false_eq_true, if_false]
      apply List.filter_congr
      intro q _
      cases hq : sameName q.1 other with
      | false => simp
      | true => simp [key _ hq]
    · simp only [Bool.not_eq_true] at hp
      simp [replaceFirst, hp, List.filter_cons, ih]

/-- After `set(name, value)`, `get(name)` is `value`. -/
theorem headersGet_set_same (h : Headers) (name value : String) :
    headersGet (headersSet h name value) name = some value := by
  unfold headersGet headersSet
  by_cases hany : h.any (fun p => sameName p.1 name) = true
  · simp only [hany, if_true, filter_replaceFirst_same name value h hany]
    simp [String.intercalate, String.intercalate.go]
  · simp only [hany, if_false]
    have hnone : h.filter (fun p => sameName p.1 name) = [] := by
      simp only [List.filter_eq_nil_iff]
      intro p hp hs
      exact hany (List.any_eq_true.mpr ⟨p, hp, hs⟩)
    simp [List.filter_append, hnone, sameName_self, String.intercalate, String.intercalate.go]

/-- A `set(name, value)` leaves `get` of every other name as it was. -/
theorem headersGet_set_other (h : Headers) (name value other : String)
    (hne : sameName other name = false) :
    headersGet (headersSet h name value) other = headersGet h other := by
  unfold headersGet headersSet
  by_cases hany : h.any (fun p => sameName p.1 name) = true
  · simp only [hany, if_true, filter_replaceFirst_other name value other h hne]
  · have hno : sameName name other = false := by
      cases hno : sameName name other with
      | false => rfl
      | true =>
        rw [sameName_iff] at hno
        have : sameName other name = true := by rw [sameName_iff, hno]
        rw [hne] at this; exact absurd this (by decide)
    simp [hany, List.filter_append, hno]

/-! ## Lemmas on the object store -/

/-- After a `put` under `key` the store holds exactly one entry under `key`. -/
theorem storePut_filter (s : Store) (key : String) (value : Record) :
    (storePut s key value).filter (fun p => p.1 == key) = [(key, value)] := by
  simp [storePut, List.filter_append, List.filter_filter]

/-- After a `put` under `key`, `get(key)` is the value put. -/
theorem storeGet_put_same (s : Store) (key : String) (value : Record) :
    storeGet (storePut s key value) key = some value := by
  unfold storeGet storePut
  induction s with
  | nil => simp [List.lookup]
  | cons p ps ih =>
    by_cases hp : p.1 = key
    · simpa [List.filter_cons, hp] using ih
    · have hk : (key == p.1) = false := by
        simp only [beq_eq_false_iff_ne, ne_eq]
        exact fun h => hp h.symm
      simpa [List.filter_cons, hp, List.lookup, hk] using ih

/-- A `put` under `key` leaves `get` of every other key as it was. -/
theorem storeGet_put_other (s : Store) (key other : String) (value : Record)
    (hne : other ≠ key) :
    storeGet (storePut s key value) other = storeGet s other := by
  have hok : (other == key) = false := by
    simp only [beq_eq_false_iff_ne, ne_eq]
    exact hne
  unfold storeGet storePut
  induction s with
  | nil => simp [List.lookup, hok]
  | cons p ps ih =>
    by_cases hp : p.1 = key
    · simpa [List.filter_cons, hp, List.lookup, hok] using ih
    · by_cases ho : other = p.1
      · simp [List.filter_cons, hp, List.lookup, ho]
      · have hk : (other == p.1) = false := by
          simp only [beq_eq_false_iff_ne, ne_eq]
          exact ho
        simpa [List.filter_cons, hp, List.lookup, hk] using ih

/-- Once the store has opened, every intercepted call starts with the lookup and the
conditional request. -/
theorem fetch_trace_starts (w : World) (url : String) (args : Args)
    (hres : resolveUrl args = .text url)
    (hurl : intercepted url = true) (hopen : w.openOk 0 = true) :
    ∃ rest, (fetch w args).trace = requestTrace w url args ++ rest := by
  cases hnet : w.net 0 (conditionalArgs url args (lookupResult w url)) with
  | rejects reason =>
    exact ⟨[], by rw [fetch_net_rejects w url args reason hres hurl hopen hnet]; simp⟩
  | resolves response =>
    cases hhit : isHit response (lookupResult w url) with
    | true => exact ⟨_, by rw [fetch_hit w url args response hres hurl hopen hnet hhit]⟩
    | false =>
      by_cases hstatus : response.status = 200
      · cases hbody : response.body with
        | none =>
          exact ⟨[], by
            rw [fetch_fill_no_body w url args response hres hurl hopen hnet hhit hstatus hbody]; simp⟩
        | some body =>
          obtain ⟨chunks, fails⟩ := body
          cases fails with
          | true =>
            exact ⟨_, by
              rw [fetch_fill_read_error w url args response chunks hres hurl hopen hnet hhit hstatus
                hbody, List.append_assoc]⟩
          | false =>
            cases hwrite : w.openOk 1 with
            | true =>
              exact ⟨_, by
                rw [fetch_fill_done w url args response chunks hres hurl hopen hnet hhit hstatus
                  hbody hwrite, List.append_assoc]⟩
            | false =>
              exact ⟨_, by
                rw [fetch_fill_write_error w url args response chunks hres hurl hopen hnet hhit
                  hstatus hbody hwrite, List.append_assoc]⟩
      · exact ⟨_, by rw [fetch_other_status w url args response hres hurl hopen hnet hhit hstatus]⟩

/-! ## The interceptor on unmatched URLs -/

/-- For a first argument that is a string or a `Request`, and whose URL contains neither
marker, the wrapper invokes the native fetch once with the caller's argument list,
returns what that invocation returned, and performs no step on the object store. -/
theorem unmatched_text_url_passes_through (w : World) (url : String) (args : Args)
    (hres : resolveUrl args = .text url)
    (h1 : includes url "unityweb" = false)
    (h2 : includes url "assets" = false) :
    fetchCalls (fetch w args).trace = [args] ∧
    (fetch w args).returned = .passthrough (w.net 0 args) ∧
    (∀ e ∈ (fetch w args).trace, e.isStorage = false) ∧
    (fetch w args).store = w.store := by
  have hurl : intercepted url = false := by
    simp [intercepted, TARGET_URL, TARGET_PATTERN, h1, h2]
  rw [fetch_not_intercepted w url args hres hurl]
  simp [fetchCalls, Event.isStorage]

/-- C1: at the call `fetch(new URL("https://g.ru/api/login"))`, whose URL contains
neither `unityweb` nor `assets`, the wrapper does not invoke the native fetch at all:
`url.includes` throws on the `URL` object and the wrapper rejects with a `TypeError`,
although the native fetch would have answered.  The same URL passed as a string is
handed to the native fetch once, untouched. -/
theorem C1_url_object_is_rejected :
    resolveUrl (callWithUrlObject otherUrl) = .object otherUrl ∧
    includes otherUrl "unityweb" = false ∧
    includes otherUrl "assets" = false ∧
    freshWorld.net 0 (callWithUrlObject otherUrl) =
      .resolves (answer 200 [("ETag", "\"v1\"")] [[65], [66], [67]]) ∧
    (fetch freshWorld (callWithUrlObject otherUrl)).returned = .rejected .typeError ∧
    fetchCalls (fetch freshWorld (callWithUrlObject otherUrl)).trace = [] ∧
    fetchCalls (fetch freshWorld (callOf otherUrl)).trace = [callOf otherUrl] ∧
    (fetch freshWorld (callOf otherUrl)).returned =
      .passthrough (freshWorld.net 0 (callOf otherUrl)) := by
  decide

/-! ## Requests and responses of an intercepted call -/

/-- C2: at an intercepted call whose conditional request is answered with status 500,
the wrapper calls the native fetch twice (first with the conditional request, then
with the caller's arguments) and hands the caller the second answer, not the 500. -/
theorem C2_error_status_fetches_twice :
    resolveUrl (callOf assetUrl) = .text assetUrl ∧
    intercepted assetUrl = true ∧
    errorWorld.net 0 (conditionalArgs assetUrl (callOf assetUrl) none) =
      .resolves (answer 500 [("X-Try", "1")] []) ∧
    fetchCalls (fetch errorWorld (callOf assetUrl)).trace =
      [conditionalArgs assetUrl (callOf assetUrl) none, callOf assetUrl] ∧
    (fetch errorWorld (callOf assetUrl)).returned =
      .passthrough (.resolves (answer 503 [("X-Try", "2")] [])) := by
  decide

/-- C3, as stated, fails: the origin answers 304 to an intercepted call for which the
lookup found no record (the caller sent its own `If-None-Match`); the wrapper then
throws on `cached.blob` and returns no response at all. -/
theorem C3_not_modified_without_record :
    resolveUrl (callWith assetUrl [("If-None-Match", "\"v0\"")]) = .text assetUrl ∧
    intercepted assetUrl = true ∧
    lookupResult notModifiedWorld assetUrl = none ∧
    notModifiedWorld.net 0
        (conditionalArgs assetUrl (callWith assetUrl [("If-None-Match", "\"v0\"")]) none) =
      .resolves (answer 304 [("Date", "d")] []) ∧
    (fetch notModifiedWorld (callWith assetUrl [("If-None-Match", "\"v0\"")])).returned =
      .rejected .typeError := by
  decide

/-- C3, amended: for every intercepted call for which the lookup returned a record, and
whose network response has status 304, or status 200 with an `etag` header equal to that
record's etag, the wrapper returns a status-200 response whose body is the record's blob
and whose headers are the network response's headers. -/
theorem C3_hit_serves_stored_blob (w : World) (url : String) (args : Args) (c : Record)
    (response : NetResponse)
    (hres : resolveUrl args = .text url)
    (hurl : intercepted url = true)
    (hopen : w.openOk 0 = true)
    (hrec : lookupResult w url = some c)
    (hnet : w.net 0 (conditionalArgs url args (some c)) = .resolves response)
    (hstatus : response.status = 304 ∨
      (response.status = 200 ∧ headersGet response.headers "etag" = c.etag)) :
    (fetch w args).returned = .fromBlob 200 response.headers c.blob := by
  have hhit : isHit response (lookupResult w url) = true := by
    rw [hrec]
    rcases hstatus with h | ⟨h, he⟩
    · simp [isHit, h]
    · simp [isHit, h, he]
  rw [← hrec] at hnet
  rw [fetch_hit w url args response hres hurl hopen hnet hhit, hrec]

/-- Witness of C3 (amended): a stored record with etag `"v1"`, the origin answers 304. -/
theorem C3_hit_serves_stored_blob_witness :
    lookupResult revalidatedWorld assetUrl = some v1Record ∧
    (fetch revalidatedWorld (callOf assetUrl)).returned =
      .fromBlob 200 [("Date", "d")] [65, 66, 67] :=
  ⟨by decide,
    C3_hit_serves_stored_blob revalidatedWorld assetUrl (callOf assetUrl) v1Record
      (answer 304 [("Date", "d")] []) (by decide) (by decide) (by decide) (by decide)
      (by decide)
      (Or.inl (by decide))⟩

/-! ## Fresh fills -/

/-- C4, as stated, fails.  First input: the store opens for the lookup but not for
`setCache`; the status-200 response is not a hit and its chunks `A`, `B`, `C` are
delivered and enqueued without error, yet no record is stored.  Second input: a record
is stored under the URL but the `get` request of the lookup fails; the record written
by the fill has `modified = false` although a record existed. -/
theorem C4_store_failure_breaks_the_record :
    resolveUrl (callOf assetUrl) = .text assetUrl ∧
    intercepted assetUrl = true ∧
    writeFailWorld.net 0 (conditionalArgs assetUrl (callOf assetUrl) none) =
      .resolves (answer 200 [("ETag", "\"v1\"")] [[65], [66], [67]]) ∧
    isHit (answer 200 [("ETag", "\"v1\"")] [[65], [66], [67]])
      (lookupResult writeFailWorld assetUrl) = false ∧
    enqueued (fetch writeFailWorld (callOf assetUrl)).trace = [[65], [66], [67]] ∧
    (fetch writeFailWorld (callOf assetUrl)).store = [] ∧
    storeGet readFailWorld.store assetUrl = some v1Record ∧
    enqueued (fetch readFailWorld (callOf assetUrl)).trace = [[88], [89]] ∧
    storeGet (fetch readFailWorld (callOf assetUrl)).store assetUrl =
      some { url := assetUrl, date := "2024-05-01T10:00:00.000Z", modified := false,
             modifyDate := none, etag := some "\"v2\"", blob := [88, 89] } := by
  decide

/-- C4, amended: for every intercepted URL and every chunk sequence delivered without
error by a status-200 response that is not classified as a hit, the caller gets a
streamed response on which exactly those chunks are enqueued, in order; and when the
`indexedDB.open` of `setCache` succeeds, the store afterwards holds exactly one record
under the URL, with `url` the URL, `etag` the response's `etag` header, `blob` the
concatenation of the chunks in order, and `modified` true iff the lookup returned a
record (which, when the `get` request of the lookup succeeded, is: iff a record was
stored under the URL). -/
theorem C4_fresh_fill_stores_body (w : World) (url : String) (args : Args)
    (response : NetResponse) (chunks : List Chunk)
    (hres : resolveUrl args = .text url)
    (hurl : intercepted url = true)
    (hopen : w.openOk 0 = true)
    (hnet : w.net 0 (conditionalArgs url args (lookupResult w url)) = .resolves response)
    (hstatus : response.status = 200)
    (hmiss : isHit response (lookupResult w url) = false)
    (hbody : response.body = some { chunks := chunks, fails := false }) :
    (fetch w args).returned = .fromStream 200 response.headers ∧
    enqueued (fetch w args).trace = chunks ∧
    (w.openOk 1 = true →
      ∃ r : Record,
        (fetch w args).store.filter (fun p => p.1 == url) = [(url, r)] ∧
        storeGet (fetch w args).store url = some r ∧
        r.url = url ∧
        r.etag = headersGet response.headers "etag" ∧
        r.blob = chunks.flatten ∧
        (r.modified = true ↔ ∃ c, lookupResult w url = some c) ∧
        (w.getOk = true → (r.modified = true ↔ ∃ c, storeGet w.store url = some c))) := by
  cases hwrite : w.openOk 1 with
  | true =>
    rw [fetch_fill_done w url args response chunks hres hurl hopen hnet hmiss hstatus hbody
      hwrite]
    refine ⟨rfl, ?_, fun _ => ⟨filledRecord w url response chunks,
      storePut_filter _ _ _, storeGet_put_same _ _ _, rfl, rfl, rfl, ?_, ?_⟩⟩
    · simp [enqueued_append, enqueued_map_enqueue, requestTrace, enqueued]
    · simp [filledRecord, Option.isSome_iff_exists]
    · intro hget
      simp [filledRecord, Option.isSome_iff_exists, lookupResult, hget]
  | false =>
    rw [fetch_fill_write_error w url args response chunks hres hurl hopen hnet hmiss hstatus
      hbody hwrite]
    refine ⟨rfl, ?_, fun h => absurd h (by decide)⟩
    simp [enqueued_append, enqueued_map_enqueue, requestTrace, enqueued]

/-- Witness of C4 (amended): the first download of the asset, streamed as `A`, `B`,
`C`. -/
theorem C4_fresh_fill_stores_body_witness :
    enqueued (fetch freshWorld (callOf assetUrl)).trace = [[65], [66], [67]] ∧
    (fetch freshWorld (callOf assetUrl)).store =
      [(assetUrl,
        { url := assetUrl, date := "2024-05-01T10:00:00.000Z", modified := false,
          modifyDate := none, etag := some "\"v1\"", blob := [65, 66, 67] })] ∧
    freshWorld.openOk 1 = true ∧
    ((fetch freshWorld (callOf assetUrl)).returned =
        .fromStream 200 (answer 200 [("ETag", "\"v1\"")] [[65], [66], [67]]).headers ∧
      enqueued (fetch freshWorld (callOf assetUrl)).trace = [[65], [66], [67]] ∧
      (freshWorld.openOk 1 = true →
        ∃ r : Record,
          (fetch freshWorld (callOf assetUrl)).store.filter (fun p => p.1 == assetUrl) =
            [(assetUrl, r)] ∧
          storeGet (fetch freshWorld (callOf assetUrl)).store assetUrl = some r ∧
          r.url = assetUrl ∧
          r.etag =
            headersGet (answer 200 [("ETag", "\"v1\"")] [[65], [66], [67]]).headers "etag" ∧
          r.blob = [[65], [66], [67]].flatten ∧
          (r.modified = true ↔ ∃ c, lookupResult freshWorld assetUrl = some c) ∧
          (freshWorld.getOk = true →
            (r.modified = true ↔ ∃ c, storeGet freshWorld.store assetUrl = some c)))) :=
  ⟨by decide, by decide, by decide,
    C4_fresh_fill_stores_body freshWorld assetUrl (callOf assetUrl)
      (answer 200 [("ETag", "\"v1\"")] [[65], [66], [67]]) [[65], [66], [67]]
      (by decide) (by decide) (by decide) (by decide) (by decide) (by decide) (by decide)⟩

/-- C5: for every intercepted call that does not end in a fresh fill (the network
response has status 304, or has status 200 with an `etag` header equal to the etag of
the record the lookup returned, or has any status other than 200) the store after the
call is the store before the call, and no `put` is issued. -/
theorem C5_store_untouched_without_fill (w : World) (url : String) (args : Args)
    (response : NetResponse)
    (hres : resolveUrl args = .text url)
    (hurl : intercepted url = true)
    (hopen : w.openOk 0 = true)
    (hnet : w.net 0 (conditionalArgs url args (lookupResult w url)) =
      .resolves response)
    (hcase : response.status = 304 ∨
      (response.status = 200 ∧
        ∃ c, lookupResult w url = some c ∧
          headersGet response.headers "etag" = c.etag) ∨
      response.status ≠ 200) :
    (fetch w args).store = w.store ∧ ∀ e ∈ (fetch w args).trace, e.isPut = false := by
  cases hhit : isHit response (lookupResult w url) with
  | true =>
    rw [fetch_hit w url args response hres hurl hopen hnet hhit]
    simp [requestTrace, Event.isPut]
  | false =>
    have hstatus : response.status ≠ 200 := by
      rcases hcase with h | ⟨h, c, hc, he⟩ | h
      · simp [isHit, h] at hhit
      · simp [isHit, h, hc, he] at hhit
      · exact h
    rw [fetch_other_status w url args response hres hurl hopen hnet hhit hstatus]
    simp [requestTrace, Event.isPut]

/-- Witness of C5: the origin answers 500 while a record is stored. -/
theorem C5_store_untouched_without_fill_witness :
    (fetch { revalidatedWorld with net := errorWorld.net } (callOf assetUrl)).store =
      [(assetUrl, v1Record)] ∧
    ((fetch { revalidatedWorld with net := errorWorld.net } (callOf assetUrl)).store =
        ({ revalidatedWorld with net := errorWorld.net } : World).store ∧
      ∀ e ∈ (fetch { revalidatedWorld with net := errorWorld.net } (callOf assetUrl)).trace,
        e.isPut = false) :=
  ⟨by decide,
    C5_store_untouched_without_fill { revalidatedWorld with net := errorWorld.net } assetUrl
      (callOf assetUrl) (answer 500 [("X-Try", "1")] []) (by decide) (by decide) (by decide)
      (by decide)
      (Or.inr (Or.inr (by decide)))⟩

/-! ## The conditional request -/

/-- C6, as stated, fails: a record is stored under the URL, with etag `null` (as a fill
from a response without `etag` header leaves it), and the one request the wrapper makes
carries no `If-None-Match` header. -/
theorem C6_no_validator_for_etagless_record :
    resolveUrl (callWith assetUrl [("Accept", "*/*")]) = .text assetUrl ∧
    intercepted assetUrl = true ∧
    lookupResult etaglessWorld assetUrl = some etaglessRecord ∧
    fetchCalls (fetch etaglessWorld (callWith assetUrl [("Accept", "*/*")])).trace =
      [callWith assetUrl [("Accept", "*/*")]] ∧
    headersGet [("Accept", "*/*")] "If-None-Match" = none := by
  decide

/-- C6, amended: for every intercepted call (the store opening), the first request passed
to the native fetch is for the resolved URL, forwards every option of the options
argument other than `headers` with its value, and carries a header list in which
`If-None-Match` is the etag of the record the lookup returned whenever that etag is a
non-empty string, in which every other header has the value it has in the options
argument, and which equals the options argument's headers, nothing added, when the
lookup returned no record or a record whose etag is `null` or empty. -/
theorem C6_conditional_request_headers (w : World) (url : String) (args : Args)
    (hres : resolveUrl args = .text url)
    (hurl : intercepted url = true)
    (hopen : w.openOk 0 = true) :
    ∃ (h : Headers) (later : List Args),
      fetchCalls (fetch w args).trace =
        { input := .url url,
          init := some { fields := (args.init.map Init.fields).getD [], headers := some h },
          extra := [] } :: later ∧
      (∀ c e, lookupResult w url = some c → c.etag = some e → e ≠ "" →
        headersGet h "If-None-Match" = some e) ∧
      (∀ name, sameName name "If-None-Match" = false →
        headersGet h name = headersGet ((args.init.bind Init.headers).getD []) name) ∧
      ((∀ c, lookupResult w url = some c → truthy c.etag = false) →
        h = (args.init.bind Init.headers).getD []) := by
  obtain ⟨rest, hrest⟩ := fetch_trace_starts w url args hres hurl hopen
  refine ⟨requestHeaders args (lookupResult w url), fetchCalls rest, ?_, ?_, ?_, ?_⟩
  · rw [hrest, fetchCalls_append]
    simp [requestTrace, fetchCalls, conditionalArgs]
  · intro c e hc he hne
    simp [requestHeaders, hc, he, truthy, hne, headersGet_set_same]
  · intro name hname
    unfold requestHeaders
    cases hc : (lookupResult w url).bind Record.etag with
    | none => rfl
    | some e =>
      by_cases ht : truthy (some e) = true
      · simp only [ht, if_true]
        exact headersGet_set_other _ _ _ _ hname
      · simp [ht]
  · intro hfalsy
    unfold requestHeaders
    cases hc : lookupResult w url with
    | none => rfl
    | some c =>
      have ht := hfalsy c hc
      cases he : c.etag with
      | none => simp [he]
      | some e =>
        rw [he] at ht
        simp [he, ht]

/-- Witness of C6 (amended): a stored record with etag `"v1"`, a caller that sends
`Accept`. -/
theorem C6_conditional_request_headers_witness :
    fetchCalls (fetch revalidatedWorld (callWith assetUrl [("Accept", "*/*")])).trace =
      [callWith assetUrl [("Accept", "*/*"), ("If-None-Match", "\"v1\"")]] ∧
    ∃ (h : Headers) (later : List Args),
      fetchCalls (fetch revalidatedWorld (callWith assetUrl [("Accept", "*/*")])).trace =
        { input := .url assetUrl,
          init := some
            { fields := ((callWith assetUrl [("Accept", "*/*")]).init.map Init.fields).getD [],
              headers := some h },
          extra := [] } :: later ∧
      (∀ c e, lookupResult revalidatedWorld assetUrl = some c →
          c.etag = some e → e ≠ "" → headersGet h "If-None-Match" = some e) ∧
      (∀ name, sameName name "If-None-Match" = false →
        headersGet h name =
          headersGet (((callWith assetUrl [("Accept", "*/*")]).init.bind Init.headers).getD [])
            name) ∧
      ((∀ c, lookupResult revalidatedWorld assetUrl = some c →
          truthy c.etag = false) →
        h = ((callWith assetUrl [("Accept", "*/*")]).init.bind Init.headers).getD []) :=
  ⟨by decide,
    C6_conditional_request_headers revalidatedWorld assetUrl
      (callWith assetUrl [("Accept", "*/*")])
      (by decide) (by decide) (by decide)⟩

/-! ## Failures of the store and of the body -/

/-- C7: at an intercepted call whose `indexedDB.open` fires `onerror`, the wrapper
rejects with that error and never calls the native fetch, although the native fetch
would have answered 200; with the same world and a store that opens, the call
completes with a streamed response. -/
theorem C7_open_failure_rejects_the_call :
    resolveUrl (callOf assetUrl) = .text assetUrl ∧
    intercepted assetUrl = true ∧
    downWorld.openOk 0 = false ∧
    downWorld.net 0 (callOf assetUrl) =
      .resolves (answer 200 [("ETag", "\"v1\"")] [[65], [66], [67]]) ∧
    (fetch downWorld (callOf assetUrl)).returned = .rejected .dbOpen ∧
    fetchCalls (fetch downWorld (callOf assetUrl)).trace = [] ∧
    (fetch { downWorld with openOk := fun _ => true } (callOf assetUrl)).returned =
      .fromStream 200 [("ETag", "\"v1\"")] := by
  decide

/-- C8: on a fresh fill whose body yields the chunks `c1..ck` and then a read error, the
chunks `c1..ck` are enqueued on the caller's stream in order, the stream ends in the
errored state and is never closed, `setCache` is not called (the only steps on the store
are the lookup's open and get, and no `put` is issued), and the store is unchanged. -/
theorem C8_read_error_stores_nothing (w : World) (url : String) (args : Args) (response : NetResponse)
    (chunks : List Chunk)
    (hres : resolveUrl args = .text url)
    (hurl : intercepted url = true)
    (hopen : w.openOk 0 = true)
    (hnet : w.net 0 (conditionalArgs url args (lookupResult w url)) =
      .resolves response)
    (hstatus : response.status = 200)
    (hmiss : isHit response (lookupResult w url) = false)
    (hbody : response.body = some { chunks := chunks, fails := true }) :
    (fetch w args).returned = .fromStream 200 response.headers ∧
    enqueued (fetch w args).trace = chunks ∧
    (fetch w args).trace.getLast? = some .streamError ∧
    Event.close ∉ (fetch w args).trace ∧
    (fetch w args).trace.filter Event.isStorage =
      [.openDB true, .get url w.getOk] ∧
    (∀ e ∈ (fetch w args).trace, e.isPut = false) ∧
    (fetch w args).store = w.store := by
  rw [fetch_fill_read_error w url args response chunks hres hurl hopen hnet hmiss hstatus hbody]
  refine ⟨rfl, ?_, ?_, ?_, ?_, ?_, rfl⟩
  · simp [enqueued_append, enqueued_map_enqueue, requestTrace, enqueued]
  · simp
  · simp [requestTrace]
  · simp [requestTrace, List.filter_append, List.filter_cons, Event.isStorage,
      List.filter_eq_nil_iff]
  · intro e he
    simp only [requestTrace, List.mem_append, List.mem_cons, List.mem_map,
      List.mem_singleton, List.not_mem_nil, or_false] at he
    rcases he with (((h | h | h | h) | ⟨c, _, h⟩) | h) <;> subst h <;> rfl

/-- Witness of C8: the body reader rejects after `A`, `B`. -/
theorem C8_read_error_stores_nothing_witness :
    (fetch brokenBodyWorld (callOf assetUrl)).trace =
      [ .log "%c[MMO Cache] Intercepted: https://g.ru/assets/a.unityweb",
        .openDB true,
        .get assetUrl true,
        .nativeFetch { input := .url assetUrl,
                       init := some { fields := [], headers := some [] }, extra := [] },
        .enqueue [65],
        .enqueue [66],
        .streamError ] ∧
    ((fetch brokenBodyWorld (callOf assetUrl)).returned = .fromStream 200 [("ETag", "\"v1\"")] ∧
      enqueued (fetch brokenBodyWorld (callOf assetUrl)).trace = [[65], [66]] ∧
      (fetch brokenBodyWorld (callOf assetUrl)).trace.getLast? = some .streamError ∧
      Event.close ∉ (fetch brokenBodyWorld (callOf assetUrl)).trace ∧
      (fetch brokenBodyWorld (callOf assetUrl)).trace.filter Event.isStorage =
        [.openDB true, .get assetUrl brokenBodyWorld.getOk] ∧
      (∀ e ∈ (fetch brokenBodyWorld (callOf assetUrl)).trace, e.isPut = false) ∧
      (fetch brokenBodyWorld (callOf assetUrl)).store = brokenBodyWorld.store) :=
  ⟨by decide,
    C8_read_error_stores_nothing brokenBodyWorld assetUrl (callOf assetUrl)
      { status := 200, headers := [("ETag", "\"v1\"")],
        body := some { chunks := [[65], [66]], fails := true } }
      [[65], [66]] (by decide) (by decide) (by decide) (by decide) (by decide) (by decide) (by decide)⟩

/-! ## Order of forwarding and storing -/

/-- C9, as stated, fails: in the first download of the asset, the `put` of `setCache`,
and the `indexedDB.open` before it, are issued before the forwarding stream is closed. -/
theorem C9_put_precedes_close :
    (fetch freshWorld (callOf assetUrl)).returned = .fromStream 200 [("ETag", "\"v1\"")] ∧
    Event.close ∈ (fetch freshWorld (callOf assetUrl)).trace ∧
    Event.put assetUrl
        { url := assetUrl, date := "2024-05-01T10:00:00.000Z", modified := false,
          modifyDate := none, etag := some "\"v1\"", blob := [65, 66, 67] } ∈
      beforeClose (fetch freshWorld (callOf assetUrl)).trace ∧
    Event.openDB true ∈
      beforeClose ((fetch freshWorld (callOf assetUrl)).trace.drop 7) := by
  decide

/-- C9, amended: the event trace of every fresh fill whose body is delivered without
error (the store opening for the lookup and for the write) is: the lookup and the
conditional request, then the chunks enqueued in order, then the storage write of
`setCache` (its open and its `put`), then the close of the forwarding stream.  So the
stream is closed only after the last chunk has been enqueued, the storage write starts
only after the last chunk has been enqueued, and the stream is closed only after the
`put` has been issued. -/
theorem C9_fill_order (w : World) (url : String) (args : Args) (response : NetResponse)
    (chunks : List Chunk)
    (hres : resolveUrl args = .text url)
    (hurl : intercepted url = true)
    (hopen : w.openOk 0 = true)
    (hnet : w.net 0 (conditionalArgs url args (lookupResult w url)) =
      .resolves response)
    (hstatus : response.status = 200)
    (hmiss : isHit response (lookupResult w url) = false)
    (hbody : response.body = some { chunks := chunks, fails := false })
    (hwrite : w.openOk 1 = true) :
    (fetch w args).trace =
      requestTrace w url args ++ chunks.map Event.enqueue ++
        [ .log ("%c[MMO Cache] Stored in DB: " ++ url),
          .openDB true,
          .put url (filledRecord w url response chunks),
          .close ] ∧
    enqueued (requestTrace w url args) = [] := by
  rw [fetch_fill_done w url args response chunks hres hurl hopen hnet hmiss hstatus hbody hwrite]
  exact ⟨rfl, by simp [requestTrace, enqueued]⟩

/-- Witness of C9 (amended): the first download of the asset. -/
theorem C9_fill_order_witness :
    (fetch freshWorld (callOf assetUrl)).trace =
      [ .log "%c[MMO Cache] Intercepted: https://g.ru/assets/a.unityweb",
        .openDB true,
        .get assetUrl true,
        .nativeFetch { input := .url assetUrl,
                       init := some { fields := [], headers := some [] }, extra := [] },
        .enqueue [65],
        .enqueue [66],
        .enqueue [67],
        .log "%c[MMO Cache] Stored in DB: https://g.ru/assets/a.unityweb",
        .openDB true,
        .put assetUrl
          { url := assetUrl, date := "2024-05-01T10:00:00.000Z", modified := false,
            modifyDate := none, etag := some "\"v1\"", blob := [65, 66, 67] },
        .close ] ∧
    ((fetch freshWorld (callOf assetUrl)).trace =
        requestTrace freshWorld assetUrl (callOf assetUrl) ++
          ([[65], [66], [67]] : List Chunk).map Event.enqueue ++
          [ .log ("%c[MMO Cache] Stored in DB: " ++ assetUrl),
            .openDB true,
            .put assetUrl
              (filledRecord freshWorld assetUrl
                (answer 200 [("ETag", "\"v1\"")] [[65], [66], [67]]) [[65], [66], [67]]),
            .close ] ∧
      enqueued (requestTrace freshWorld assetUrl (callOf assetUrl)) = []) :=
  ⟨by decide,
    C9_fill_order freshWorld assetUrl (callOf assetUrl)
      (answer 200 [("ETag", "\"v1\"")] [[65], [66], [67]]) [[65], [66], [67]]
      (by decide) (by decide) (by decide) (by decide) (by decide) (by decide) (by decide) (by decide)⟩

/-! ## Records without a validator -/

/-- C10, as stated, fails: a fill stored a record from a response without `etag` header;
on a later intercepted call for that URL the `get` request of the lookup fails, the
status-200 response again carries no `etag` header, and the call is a fresh fill: the
caller is streamed the new body and the record is replaced. -/
theorem C10_read_failure_refills :
    resolveUrl (callOf assetUrl) = .text assetUrl ∧
    intercepted assetUrl = true ∧
    (storeGet etaglessReadFail.store assetUrl).map Record.etag = some none ∧
    (storeGet etaglessReadFail.store assetUrl).map Record.blob = some [65, 66, 67] ∧
    etaglessReadFail.net 0 (conditionalArgs assetUrl (callOf assetUrl) none) =
      .resolves (answer 200 [("Date", "d2")] [[88], [89]]) ∧
    headersGet [("Date", "d2")] "etag" = none ∧
    (fetch etaglessReadFail (callOf assetUrl)).returned = .fromStream 200 [("Date", "d2")] ∧
    enqueued (fetch etaglessReadFail (callOf assetUrl)).trace = [[88], [89]] ∧
    (storeGet (fetch etaglessReadFail (callOf assetUrl)).store assetUrl).map Record.blob =
      some [88, 89] := by
  decide

/-- C10, amended: let a fresh fill store a record from a status-200 response that
carried no `etag` header.  Then for every later intercepted call for that URL for which
the lookup returns that record (the store opens, the `get` request succeeds, and that
record is the one stored under the URL) and whose status-200 response again carries no
`etag` header: the one request made carries the options argument's headers with nothing
added (no `If-None-Match`), the caller gets the blob stored by the fill, not the new
network body, and the store is left as it was, so the record is still the one under the
URL and the same holds for the next such call. -/
theorem C10_etagless_record_served_forever
    (url : String)
    (w1 : World) (args1 : Args) (response1 : NetResponse) (chunks1 : List Chunk)
    (w2 : World) (args2 : Args) (response2 : NetResponse)
    (hres1 : resolveUrl args1 = .text url)
    (hurl : intercepted url = true)
    (hopen1 : w1.openOk 0 = true)
    (hnet1 : w1.net 0 (conditionalArgs url args1 (lookupResult w1 url)) =
      .resolves response1)
    (hstatus1 : response1.status = 200)
    (hmiss1 : isHit response1 (lookupResult w1 url) = false)
    (hetag1 : headersGet response1.headers "etag" = none)
    (hbody1 : response1.body = some { chunks := chunks1, fails := false })
    (hwrite1 : w1.openOk 1 = true)
    (hres2 : resolveUrl args2 = .text url)
    (hkept : storeGet w2.store url = storeGet (fetch w1 args1).store url)
    (hopen2 : w2.openOk 0 = true)
    (hget2 : w2.getOk = true)
    (hnet2 : w2.net 0 (conditionalArgs url args2 (lookupResult w2 url)) =
      .resolves response2)
    (hstatus2 : response2.status = 200)
    (hetag2 : headersGet response2.headers "etag" = none) :
    fetchCalls (fetch w2 args2).trace =
      [ { input := .url url,
          init := some { fields := (args2.init.map Init.fields).getD [],
                         headers := some ((args2.init.bind Init.headers).getD []) },
          extra := [] } ] ∧
    (fetch w2 args2).returned = .fromBlob 200 response2.headers chunks1.flatten ∧
    (∀ e ∈ (fetch w2 args2).trace, e.isPut = false) ∧
    (fetch w2 args2).store = w2.store ∧
    storeGet (fetch w2 args2).store url = storeGet (fetch w1 args1).store url := by
  have hfill : storeGet (fetch w1 args1).store url =
      some (filledRecord w1 url response1 chunks1) := by
    rw [fetch_fill_done w1 url args1 response1 chunks1 hres1 hurl hopen1 hnet1 hmiss1
      hstatus1 hbody1 hwrite1]
    exact storeGet_put_same _ _ _
  have hrec : lookupResult w2 url = some (filledRecord w1 url response1 chunks1) := by
    simp [lookupResult, hget2, hkept, hfill]
  have hhit : isHit response2 (lookupResult w2 url) = true := by
    rw [hrec]
    simp [isHit, hstatus2, hetag2, filledRecord, hetag1]
  rw [fetch_hit w2 url args2 response2 hres2 hurl hopen2 hnet2 hhit, hrec]
  refine ⟨?_, ?_, ?_, rfl, hkept⟩
  · simp [fetchCalls_append, requestTrace, fetchCalls, hrec, conditionalArgs, requestHeaders,
      filledRecord, hetag1]
  · simp [filledRecord]
  · simp [requestTrace, Event.isPut]

/-- Witness of C10 (amended): a fill from a response without `etag`, then a second call
answered with a new body, again without `etag`. -/
theorem C10_etagless_record_served_forever_witness :
    (fetch etaglessLater (callOf assetUrl)).returned =
      .fromBlob 200 [("Date", "d2")] [65, 66, 67] ∧
    etaglessLater.getOk = true ∧
    (fetchCalls (fetch etaglessLater (callOf assetUrl)).trace =
        [ { input := .url assetUrl,
            init := some { fields := ((callOf assetUrl).init.map Init.fields).getD [],
                           headers := some (((callOf assetUrl).init.bind Init.headers).getD []) },
            extra := [] } ] ∧
      (fetch etaglessLater (callOf assetUrl)).returned =
        .fromBlob 200 (answer 200 [("Date", "d2")] [[88], [89]]).headers
          ([[65], [66], [67]] : List Chunk).flatten ∧
      (∀ e ∈ (fetch etaglessLater (callOf assetUrl)).trace, e.isPut = false) ∧
      (fetch etaglessLater (callOf assetUrl)).store = etaglessLater.store ∧
      storeGet (fetch etaglessLater (callOf assetUrl)).store assetUrl =
        storeGet (fetch etaglessFill (callOf assetUrl)).store assetUrl) :=
  ⟨by decide, by decide,
    C10_etagless_record_served_forever assetUrl etaglessFill (callOf assetUrl)
      (answer 200 [("Date", "d1")] [[65], [66], [67]]) [[65], [66], [67]]
      etaglessLater (callOf assetUrl) (answer 200 [("Date", "d2")] [[88], [89]])
      (by decide) (by decide) (by decide) (by decide) (by decide) (by decide) (by decide)
      (by decide) (by decide) (by decide) (by decide) (by decide) (by decide) (by decide)
      (by decide) (by decide)⟩

end MMOCacheHelper
